import Mathlib

/-!
Verification development for the Tieto flat-file semantic retrieval engine
(repository `timthepost/tieto-lume`).

The engine lives in two evolutionary variants of the `Tieto` class contained
in `src/src/serve.ts`.  The later variant (lines 553-919) is the current one;
the earlier variant (lines 65-399) is kept in the repository and is modelled
here where the behaviour of the two differs.

Modelling conventions:
* JavaScript numbers are modelled as exact rationals extended with the three
  IEEE special values `NaN`, `+Infinity`, `-Infinity` (`JsNum`).  Rounding is
  not modelled; every property proved below is about comparison, selection and
  control-flow structure, not about rounded float values.
* `Math.sqrt` / `Math.hypot` are irrational on rationals, so they are modelled
  by an abstract square-root oracle `sqrtFn : ℚ → ℚ` passed explicitly;
  theorems assume only the properties of `sqrtFn` they actually need
  (for instance `sqrtFn 0 = 0`).
* `Date.parse` is engine specific, so it is likewise passed as an abstract
  oracle `dp : String → Option ℚ` (`none` models `NaN`).
* Network effects (`this.embed`, `this.complete`) are modelled by explicit
  function parameters; `search` additionally reports whether the embedding
  client was invoked (`SearchOutcome.embedCalled`).
* Pieces of the platform that the engine merely calls (file walking, YAML
  front-matter extraction, `JSON.stringify`) are abstracted as parameters:
  `search` receives the chunk records read for the topic, `ingest` receives
  the already-extracted metadata and body and a serializer.
-/

namespace Tieto

/-! ### String utilities

The JavaScript string operations the engine uses (`trim`, one-separator
`split`, `includes`, `endsWith`) are modelled by structurally recursive
functions on the character list of a `String`, so that every definition in
this file evaluates by kernel reduction. -/

/-- JavaScript `String.prototype.trim` (whitespace stripped from both
ends). -/
def jsTrim (s : String) : String :=
  String.mk (((s.data.dropWhile Char.isWhitespace).reverse.dropWhile
    Char.isWhitespace).reverse)

def splitOnCharAux (c : Char) : List Char → List String
  | [] => [""]
  | a :: rest =>
    let r := splitOnCharAux c rest
    if a == c then "" :: r
    else
      match r with
      | [] => [String.mk [a]]
      | s :: ss => String.mk (a :: s.data) :: ss

/-- JavaScript `split` with a one-character separator (the engine only ever
splits on `"\n"`, `"/"` and `","`): `"".split(c)` is `[""]`, and empty
fields are kept. -/
def splitOnChar (c : Char) (s : String) : List String := splitOnCharAux c s.data

/-- Whether `pre` is a prefix of `l`. -/
def leadsWith : List Char → List Char → Bool
  | [], _ => true
  | _ :: _, [] => false
  | a :: pre, b :: l => a == b && leadsWith pre l

/-- Whether `sub` occurs somewhere in `l`. -/
def hasSub (sub : List Char) : List Char → Bool
  | [] => leadsWith sub []
  | c :: cs => leadsWith sub (c :: cs) || hasSub sub cs

/-- JavaScript `String.prototype.endsWith`. -/
def strEndsWith (s suf : String) : Bool :=
  s.data.reverse.take suf.data.length == suf.data.reverse

/-- JavaScript numbers: exact rationals plus `NaN` and the two infinities. -/
inductive JsNum where
  | nan
  | inf
  | ninf
  | num (q : ℚ)
deriving DecidableEq

/-- JavaScript addition on `JsNum` (only the cases that can actually arise
are exercised; `NaN` poisons every sum). -/
def jsAdd : JsNum → JsNum → JsNum
  | .nan, _ => .nan
  | _, .nan => .nan
  | .inf, .ninf => .nan
  | .ninf, .inf => .nan
  | .inf, _ => .inf
  | _, .inf => .inf
  | .ninf, _ => .ninf
  | _, .ninf => .ninf
  | .num a, .num b => .num (a + b)

/-- JavaScript division of two exact numbers: `0/0` is `NaN`, `x/0` for
nonzero `x` is a signed infinity, otherwise exact rational division. -/
def jsDivQ (x y : ℚ) : JsNum :=
  if y = 0 then
    if x = 0 then .nan else if 0 < x then .inf else .ninf
  else .num (x / y)

/-- JavaScript division on `JsNum` (`NaN` operands propagate). -/
def jsDiv : JsNum → JsNum → JsNum
  | .nan, _ => .nan
  | _, .nan => .nan
  | .inf, .inf => .nan
  | .inf, .ninf => .nan
  | .ninf, .inf => .nan
  | .ninf, .ninf => .nan
  | .inf, .num _ => .inf
  | .ninf, .num _ => .ninf
  | .num _, .inf => .num 0
  | .num _, .ninf => .num 0
  | .num a, .num b => jsDivQ a b

/-- The JavaScript comparison `a >= b`: false whenever either side is `NaN`. -/
def jsCmpGe : JsNum → JsNum → Bool
  | .nan, _ => false
  | _, .nan => false
  | .inf, _ => true
  | _, .inf => false
  | _, .ninf => true
  | .ninf, _ => false
  | .num a, .num b => decide (b ≤ a)

/-- The JavaScript comparison `a > b`: false whenever either side is `NaN`. -/
def jsCmpGt : JsNum → JsNum → Bool
  | .nan, _ => false
  | _, .nan => false
  | .inf, .inf => false
  | .inf, _ => true
  | _, .inf => false
  | .ninf, .ninf => false
  | .ninf, _ => false
  | _, .ninf => true
  | .num a, .num b => decide (b < a)

/-- The JavaScript comparison `a <= b`, expressed by flipping `>=`. -/
def jsCmpLe (a b : JsNum) : Bool := jsCmpGe b a

/-- The JavaScript comparison `a < b`, expressed by flipping `>`. -/
def jsCmpLt (a b : JsNum) : Bool := jsCmpGt b a

/-- JavaScript truthiness of a number: `0` and `NaN` are falsy. -/
def truthyNum : JsNum → Bool
  | .num q => decide (q ≠ 0)
  | .nan => false
  | .inf => true
  | .ninf => true

/-- Embedding vectors: lists of exact numbers. -/
abbrev Vec := List ℚ

/-- Sum of squares of a vector (the quantity under `Math.hypot`). -/
def sumSquares (v : Vec) : ℚ := (v.map (fun x => x * x)).sum

/-- `Math.hypot(...v)`: square root of the sum of squares, through the
abstract square-root oracle. -/
def hypotQ (sqrtFn : ℚ → ℚ) (v : Vec) : ℚ := sqrtFn (sumSquares v)

/-- Dot product of two equal-length vectors, as the `reduce` at
`serve.ts:589` computes it once the length check has passed. -/
def dotQ (a b : Vec) : ℚ := (List.zipWith (fun x y => x * y) a b).sum

/-- Dot product as the earlier variant (`serve.ts:95`) computes it with no
length check: the reduce runs over the indices of `a`, and an out-of-range
access `b[i]` yields `undefined`, so that term — and hence the whole sum —
is `NaN`.  When `a` is shorter than `b` the extra entries of `b` are simply
ignored (a partial, numeric result). -/
def dotV1 : Vec → Vec → JsNum
  | [], _ => .num 0
  | _ :: _, [] => .nan
  | x :: xs, y :: ys => jsAdd (.num (x * y)) (dotV1 xs ys)

/-- The message of the dimension-mismatch error thrown by both comparison
functions of the current variant (`serve.ts:587,599`). -/
def dimensionError : String := "Vectors must have the same dimension."

/-- `Tieto.cosineSimilarity` of the current variant (`serve.ts:585-593`):
length check, then dot product over the product of the two magnitudes. -/
def cosineSimilarity (sqrtFn : ℚ → ℚ) (a b : Vec) : Except String JsNum :=
  if a.length ≠ b.length then .error dimensionError
  else .ok (jsDivQ (dotQ a b) (hypotQ sqrtFn a * hypotQ sqrtFn b))

/-- `Tieto.cosineSimilarity` of the earlier variant (`serve.ts:94-99`):
identical arithmetic but NO length check. -/
def cosineSimilarityV1 (sqrtFn : ℚ → ℚ) (a b : Vec) : JsNum :=
  jsDiv (dotV1 a b) (.num (hypotQ sqrtFn a * hypotQ sqrtFn b))

/-- `Tieto.euclideanDistance` (`serve.ts:597-606`, identical in both
variants): length check, then square root of the summed squared
differences. -/
def euclideanDistance (sqrtFn : ℚ → ℚ) (a b : Vec) : Except String ℚ :=
  if a.length ≠ b.length then .error dimensionError
  else .ok (sqrtFn ((List.zipWith (fun x y => (x - y) * (x - y)) a b).sum))

/-! ### Filter engine (`serve.ts:667-730`) -/

/-- A metadata value as it occurs in YAML front matter: a scalar (already
stringified, as `actualRaw.toString()` at `serve.ts:702` does) or an array
of scalars (joined with commas at `serve.ts:701`). -/
inductive MetaValue where
  | s (v : String)
  | arr (vs : List String)
deriving DecidableEq

/-- The string coercion applied to a metadata value before comparison
(`serve.ts:700-702`). -/
def MetaValue.toStr : MetaValue → String
  | .s v => v
  | .arr vs => String.intercalate "," vs

/-- A chunk's metadata mapping, `meta?.[f.key]` modelled by association-list
lookup. -/
abbrev Meta := List (String × MetaValue)

def metaLookup (m : Meta) (k : String) : Option MetaValue :=
  (m.find? (fun p => p.1 == k)).map (fun p => p.2)

/-- Filter operators (`serve.ts:450`). -/
inductive FilterOp where
  | eq
  | ge
  | le
  | gt
  | lt
  | inOp
deriving DecidableEq

/-- A filter value: a scalar for the ordered operators and `=`, a list for
`in` (`serve.ts:451-455`). -/
inductive FilterValue where
  | scalar (v : String)
  | arr (vs : List String)
deriving DecidableEq

structure Filter where
  key : String
  op : FilterOp
  value : FilterValue
deriving DecidableEq

/-- The scalar string a filter value denotes when the code coerces it with
`as string` (JavaScript stringifies an array by joining with commas). -/
def FilterValue.asStr : FilterValue → String
  | .scalar v => v
  | .arr vs => String.intercalate "," vs

/-- Numeric value of a digit character. -/
def digitVal (c : Char) : ℕ := c.toNat - 48

/-- Value of a digit string read in base 10. -/
def natOfDigits (cs : List Char) : ℕ :=
  cs.foldl (fun acc c => 10 * acc + digitVal c) 0

/-- Decimal parser behind `Number(...)`: an optional integer part, an
optional fraction, at least one digit overall.  (Exponents, hex and
`Infinity` literals are not modelled; no stored input in this development
uses them.) -/
def parseDecimal (cs : List Char) : Option ℚ :=
  let ip := cs.takeWhile Char.isDigit
  let rest := cs.drop ip.length
  match rest with
  | [] => if ip.isEmpty then none else some (natOfDigits ip)
  | '.' :: fp =>
    if fp.all Char.isDigit && !(ip.isEmpty && fp.isEmpty) then
      some ((natOfDigits ip : ℚ) + (natOfDigits fp : ℚ) / (10 : ℚ) ^ fp.length)
    else none
  | _ => none

/-- JavaScript `Number(string)`: whitespace is trimmed, the empty string is
`0`, an optionally signed decimal parses exactly, anything else is `NaN`. -/
def jsNumber (str : String) : JsNum :=
  let t := jsTrim str
  if t = "" then .num 0
  else
    match t.data with
    | '-' :: cs =>
      match parseDecimal cs with
      | some q => .num (-q)
      | none => .nan
    | '+' :: cs =>
      match parseDecimal cs with
      | some q => .num q
      | none => .nan
    | cs =>
      match parseDecimal cs with
      | some q => .num q
      | none => .nan

/-- The coercion `Number(x) || Date.parse(x)` at `serve.ts:713-714`: the
date parse is consulted whenever `Number(x)` is falsy — that is, when it is
`NaN` but ALSO when it is `0`. -/
def numOrDate (dp : String → Option ℚ) (str : String) : JsNum :=
  let n := jsNumber str
  if truthyNum n then n
  else
    match dp str with
    | some q => .num q
    | none => .nan

/-- `Tieto.satisfies` (`serve.ts:695-730`): evaluation of one filter against
a chunk's metadata mapping. -/
def satisfies (dp : String → Option ℚ) (m : Meta) (f : Filter) : Bool :=
  match metaLookup m f.key with
  | none => false
  | some actualRaw =>
    let actualStr := actualRaw.toStr
    match f.op with
    | .eq =>
      match f.value with
      | .scalar v => actualStr == v
      | .arr _ => false
    | .inOp =>
      let list :=
        match f.value with
        | .arr vs => vs
        | .scalar v => splitOnChar ',' v
      list.contains actualStr
    | .ge => jsCmpGe (numOrDate dp actualStr) (numOrDate dp f.value.asStr)
    | .le => jsCmpLe (numOrDate dp actualStr) (numOrDate dp f.value.asStr)
    | .gt => jsCmpGt (numOrDate dp actualStr) (numOrDate dp f.value.asStr)
    | .lt => jsCmpLt (numOrDate dp actualStr) (numOrDate dp f.value.asStr)

/-- `filters.every((f) => this.satisfies(c.meta ?? {}, f))` at
`serve.ts:747`. -/
def satisfiesAll (dp : String → Option ℚ) (fs : List Filter) (m : Meta) : Bool :=
  fs.all (fun f => satisfies dp m f)

/-! ### Configuration (`serve.ts:457-578`) -/

/-- The caller-supplied `completionParams` object: every field optional. -/
structure CompletionParamsIn where
  temperature : Option ℚ := none
  n_predict : Option ℚ := none
  max_tokens : Option ℚ := none
  modelName : Option String := none
deriving DecidableEq

/-- The caller-supplied `TietoConfig` object: every field optional. -/
structure TietoConfigIn where
  minSimilarityThreshold : Option ℚ := none
  maxDistance : Option ℚ := none
  topicsDirectory : Option String := none
  embeddingsDirectory : Option String := none
  debug : Option Bool := none
  embeddingUrl : Option String := none
  completionUrl : Option String := none
  apiKey : Option String := none
  chunkSize : Option ℕ := none
  maxResults : Option ℕ := none
  completionParams : Option CompletionParamsIn := none
deriving DecidableEq

/-- The resolved `completionParams`. -/
structure CompletionParams where
  temperature : ℚ
  n_predict : ℚ
  max_tokens : ℚ
  modelName : String
deriving DecidableEq

/-- The resolved `Required<TietoConfig>` held by a `Tieto` instance. -/
structure TietoConfig where
  minSimilarityThreshold : ℚ
  maxDistance : ℚ
  topicsDirectory : String
  embeddingsDirectory : String
  debug : Bool
  embeddingUrl : String
  completionUrl : String
  apiKey : String
  chunkSize : ℕ
  maxResults : ℕ
  completionParams : CompletionParams
deriving DecidableEq

/-- The current constructor (`serve.ts:556-578`).  `env` models
`Deno.env.get`, `args` models `Deno.args`.  Note the `completionParams`
object: it is rebuilt from the literals `0`, `128`, `500` and, unlike the
earlier variant, does NOT spread `config.completionParams` over them — only
`modelName` is copied from the caller's options. -/
def mkConfig (env : String → Option String) (args : List String)
    (c : TietoConfigIn) : TietoConfig :=
  { minSimilarityThreshold := c.minSimilarityThreshold.getD (2 / 5)
    maxDistance := c.maxDistance.getD (4 / 5)
    topicsDirectory := c.topicsDirectory.getD "topics"
    embeddingsDirectory := c.embeddingsDirectory.getD "memory"
    debug := c.debug.getD (args.contains "--debug" || env "TIETO_DEBUG" == some "1")
    embeddingUrl :=
      c.embeddingUrl.getD
        ((env "TIETO_EMBEDDING_URL").getD "http://localhost:8080/v1/embeddings")
    completionUrl := c.completionUrl.getD ((env "TIETO_COMPLETION_URL").getD "")
    apiKey := c.apiKey.getD ((env "TIETO_API_KEY").getD "")
    chunkSize := c.chunkSize.getD 3
    maxResults := c.maxResults.getD 3
    completionParams :=
      { temperature := 0
        n_predict := 128
        max_tokens := 500
        modelName := (c.completionParams.bind (fun p => p.modelName)).getD "" } }

/-- The earlier variant's constructor (`serve.ts:68-87`), whose
`completionParams` DOES spread the caller's object over the defaults
(`...config.completionParams` at `serve.ts:84`); shown for contrast with
`mkConfig`.  (The earlier variant has no `maxDistance`, no directory options
and no `modelName`; only `completionParams` is modelled here.) -/
def mkCompletionParamsV1 (c : TietoConfigIn) : CompletionParams :=
  { temperature := (c.completionParams.bind (fun p => p.temperature)).getD 0
    n_predict := (c.completionParams.bind (fun p => p.n_predict)).getD 128
    max_tokens := (c.completionParams.bind (fun p => p.max_tokens)).getD 500
    modelName := "" }

/-! ### Retrieval and scoring (`serve.ts:732-800`) -/

/-- A stored chunk record (`serve.ts:542-546`). -/
structure Chunk where
  text : String
  embedding : Vec
  meta : Meta
deriving DecidableEq

/-- A chunk extended with its per-query score and distance
(`serve.ts:548-551`). -/
structure ScoredChunk where
  text : String
  embedding : Vec
  meta : Meta
  score : JsNum
  distance : ℚ
deriving DecidableEq

/-- The per-chunk scoring step of `search` (`serve.ts:761-767`): the spread
`{ ...c, score, distance }`.  The cosine similarity is computed first, so
its dimension error takes precedence, matching source evaluation order. -/
def scoreChunk (sqrtFn : ℚ → ℚ) (qVec : Vec) (c : Chunk) :
    Except String ScoredChunk :=
  match cosineSimilarity sqrtFn c.embedding qVec,
        euclideanDistance sqrtFn c.embedding qVec with
  | .error e, _ => .error e
  | _, .error e => .error e
  | .ok sc, .ok d => .ok ⟨c.text, c.embedding, c.meta, sc, d⟩

/-- `chunks.map(...)` over the scoring step, with the first thrown error
propagating. -/
def scoreAll (sqrtFn : ℚ → ℚ) (qVec : Vec) :
    List Chunk → Except String (List ScoredChunk)
  | [] => .ok []
  | c :: cs =>
    match scoreChunk sqrtFn qVec c, scoreAll sqrtFn qVec cs with
    | .error e, _ => .error e
    | _, .error e => .error e
    | .ok s, .ok ss => .ok (s :: ss)

/-- Strict "greater score" used by the sort comparator
`(a, b) => b.score - a.score` (`serve.ts:768`): a `NaN` comparator value is
treated as `0`, i.e. as a tie. -/
def scoreGtB : JsNum → JsNum → Bool
  | .nan, _ => false
  | _, .nan => false
  | .inf, .inf => false
  | .inf, _ => true
  | _, .inf => false
  | .ninf, .ninf => false
  | _, .ninf => true
  | .ninf, _ => false
  | .num a, .num b => decide (b < a)

/-- Stable insertion into a descending-by-score list: an element moves past
only strictly greater scores, so ties keep their original relative order, as
the engine's stable sort does. -/
def insertDesc (c : ScoredChunk) : List ScoredChunk → List ScoredChunk
  | [] => [c]
  | d :: ds => if scoreGtB d.score c.score then d :: insertDesc c ds else c :: d :: ds

/-- The stable descending sort by score at `serve.ts:768`. -/
def sortDesc : List ScoredChunk → List ScoredChunk
  | [] => []
  | c :: cs => insertDesc c (sortDesc cs)

/-- The final retention predicate at `serve.ts:796-799`:
`chunk.score >= minSimilarityThreshold && chunk.distance <= maxDistance`,
both comparisons inclusive. -/
def passThresholds (cfg : TietoConfig) (sc : ScoredChunk) : Bool :=
  jsCmpGe sc.score (.num cfg.minSimilarityThreshold) &&
    decide (sc.distance ≤ cfg.maxDistance)

/-- The metadata-filtering pass of `search` (`serve.ts:741-753`): only
chunks satisfying every filter survive. -/
def survivors (dp : String → Option ℚ) (filters : List Filter)
    (chunks : List Chunk) : List Chunk :=
  chunks.filter (fun c => satisfiesAll dp filters c.meta)

/-- What `search` produces: the retained chunks, plus whether the embedding
client was invoked for the question (the `await this.embed(question)` at
`serve.ts:760`). -/
structure SearchOutcome where
  result : List ScoredChunk
  embedCalled : Bool
deriving DecidableEq

/-- `Tieto.search` (`serve.ts:732-800`).  `chunks` stands for the records
read from the topic's chunk-store files; `embedFn` is the embedding client.
If nothing survives filtering, the function returns early WITHOUT touching
`embedFn`; otherwise it embeds the question once, scores every survivor,
sorts descending by score, keeps the first `maxResults`, and finally filters
by the two inclusive thresholds. -/
def search (sqrtFn : ℚ → ℚ) (dp : String → Option ℚ) (embedFn : String → Vec)
    (cfg : TietoConfig) (chunks : List Chunk) (question : String)
    (filters : List Filter) : Except String SearchOutcome :=
  let surviving := survivors dp filters chunks
  if surviving.isEmpty then .ok ⟨[], false⟩
  else
    match scoreAll sqrtFn (embedFn question) surviving with
    | .error e => .error e
    | .ok scored =>
      .ok ⟨((sortDesc scored).take cfg.maxResults).filter (passThresholds cfg), true⟩

/-! ### Prompt assembly and query orchestration (`serve.ts:802-903`) -/

/-- The fixed framing prefix of every assembled prompt. -/
def promptHeader : String :=
  "Use the information between the dashes \"---\" to answer the question that follows:\n\n---\n\n"

/-- `Tieto.buildPrompt` (`serve.ts:802-804`).  Note the trailing newline
after the question, present in the current variant's template literal. -/
def buildPrompt (context question : String) : String :=
  promptHeader ++ context ++ "\n\n---\n\nQuestion: " ++ question ++ "\n"

/-- What `query` returns: a plain string, or the raw structure
`{ chunks, response?, prompt? }`. -/
inductive QueryResult where
  | str (s : String)
  | raw (chunks : List ScoredChunk) (response : Option String) (prompt : Option String)
deriving DecidableEq

/-- `Tieto.query` (`serve.ts:869-903`).  `completeFn` models
`this.complete` (network included); it is consulted only when a completion
URL is configured. -/
def query (sqrtFn : ℚ → ℚ) (dp : String → Option ℚ) (embedFn : String → Vec)
    (completeFn : String → Except String String) (cfg : TietoConfig)
    (chunks : List Chunk) (question : String) (filters : List Filter)
    (returnRaw : Bool) : Except String QueryResult :=
  match search sqrtFn dp embedFn cfg chunks question filters with
  | .error e => .error e
  | .ok out =>
    if out.result.isEmpty then
      if returnRaw then .ok (.raw [] none none)
      else .ok (.str "No relevant chunks found above similarity threshold")
    else
      let context := String.intercalate "\n\n" (out.result.map ScoredChunk.text)
      let prompt := buildPrompt context question
      if returnRaw then
        if cfg.completionUrl ≠ "" then
          match completeFn prompt with
          | .error e => .error e
          | .ok r => .ok (.raw out.result (some r) (some prompt))
        else .ok (.raw out.result none (some prompt))
      else if cfg.completionUrl = "" then .ok (.str prompt)
      else
        match completeFn prompt with
        | .error e => .error e
        | .ok r => .ok (.str r)

/-! ### Completion client (`serve.ts:806-859`) -/

structure CompletionMessage where
  content : Option String
deriving DecidableEq

structure CompletionChoice where
  message : Option CompletionMessage
deriving DecidableEq

/-- The JSON body of a successful completion response, restricted to the
two fields the parser inspects. -/
structure CompletionResponse where
  choices : Option (List CompletionChoice)
  content : Option String
deriving DecidableEq

/-- The optional chain `json.choices[0]?.message?.content`. -/
def nestedContent (j : CompletionResponse) : Option String :=
  j.choices.bind fun cs => (cs.head?.bind fun ch => ch.message).bind fun m => m.content

/-- JavaScript truthiness of an optional string: absent and `""` are falsy. -/
def truthyStr : Option String → Bool
  | none => false
  | some str => str != ""

/-- The response parsing at `serve.ts:851-858`:
`if (json.choices && json.choices[0]?.message?.content) ... else if
(json.content) ... else ""`.  The conditions are TRUTHINESS checks, not
presence checks. -/
def completeParse (j : CompletionResponse) : String :=
  if j.choices.isSome && truthyStr (nestedContent j) then
    jsTrim ((nestedContent j).getD "")
  else if truthyStr j.content then jsTrim (j.content.getD "")
  else ""

/-- `url.includes(frag)`. -/
def urlHas (url frag : String) : Bool := hasSub frag.data url.data

/-- The provider heuristic at `serve.ts:821-826`. -/
def isChatProvider (url : String) : Bool :=
  urlHas url "anthropic" || urlHas url "openai" || urlHas url "featherless" ||
    urlHas url "openrouter" || urlHas url "atlas"

/-- The two request-body shapes built at `serve.ts:827-837`. -/
inductive CompletionBody where
  | chat (model : String) (content : String) (max_tokens temperature : ℚ)
  | flat (prompt : String) (temperature n_predict : ℚ)
deriving DecidableEq

/-- The request body `complete` sends, as a function of the resolved
configuration (`serve.ts:821-837`): both shapes read the temperature and
length parameters out of `config.completionParams`. -/
def buildCompletionBody (cfg : TietoConfig) (prompt : String) : CompletionBody :=
  if isChatProvider cfg.completionUrl then
    .chat cfg.completionParams.modelName prompt cfg.completionParams.max_tokens
      cfg.completionParams.temperature
  else
    .flat prompt cfg.completionParams.temperature cfg.completionParams.n_predict

/-! ### Ingestion (`serve.ts:645-665`) -/

/-- The fixed-size line windows of the chunker (`serve.ts:652-656`): the
loop `for (let i = 0; i < lines.length; i += chunkSize)` over
`lines.slice(i, i + chunkSize)`.  (With `chunkSize = 0` the source loop
would not terminate; the model returns `[]` in that degenerate case, which
no claim exercises — the default is 3.) -/
def chunkWindows (cs : ℕ) (ls : List String) : List (List String) :=
  if h : cs = 0 then []
  else if h2 : ls = [] then []
  else ls.take cs :: chunkWindows cs (ls.drop cs)
termination_by ls.length
decreasing_by
  simp only [List.length_drop]
  have h3 : ls.length ≠ 0 := fun hh => h2 (List.length_eq_zero.mp hh)
  omega

/-- The `.txt` → `.jsonl` rename at `serve.ts:659`. -/
def jsonlName (nameTxt : String) : String :=
  if strEndsWith nameTxt ".txt" then nameTxt.dropRight 4 ++ ".jsonl" else nameTxt

/-- Everything `ingest` decides: the chunks built, how many embedding calls
were made (one per window), the derived output path, and the exact file
content written. -/
structure IngestOutcome where
  chunks : List Chunk
  embedCalls : ℕ
  outPath : String
  written : String
deriving DecidableEq

/-- `Tieto.ingest` (`serve.ts:645-665`), modelled from the point after the
front-matter extraction (which the std library performs): `m` and `body` are
the extracted metadata and body, `ser` models `JSON.stringify` on one chunk
record, `path` is the source path whose second and third `/`-separated
components name the topic and the document (a missing component is
JavaScript's `undefined`, which stringifies into the path). -/
def ingest (embedFn : String → Vec) (ser : Chunk → String) (cfg : TietoConfig)
    (m : Meta) (body : String) (path : String) : IngestOutcome :=
  let lines := ((splitOnChar '\n' body).map jsTrim).filter (fun l => l ≠ "")
  let texts := (chunkWindows cfg.chunkSize lines).map (String.intercalate "\n")
  let cks := texts.map (fun t => ({ text := t, embedding := embedFn t, meta := m } : Chunk))
  let parts := splitOnChar '/' path
  let topic := ((parts.drop 1).head?).getD "undefined"
  let nameTxt := ((parts.drop 2).head?).getD "undefined"
  { chunks := cks
    embedCalls := texts.length
    outPath := cfg.topicsDirectory ++ "/" ++ topic ++ "/" ++
      cfg.embeddingsDirectory ++ "/" ++ jsonlName nameTxt
    written := String.intercalate "\n" (cks.map ser) }

/-- `Deno.writeTextFile` on a store modelled as a path-indexed map: the
write REPLACES whatever was at the path. -/
def writeStore (fs : String → Option String) (p content : String) :
    String → Option String :=
  fun q => if q = p then some content else fs q

/-! ## Claim theorems -/

/-- C3, counterexample.  The claim also covers the earlier variant's
`cosineSimilarity` (`serve.ts:94-99`, an explicitly cited source), which
performs NO length check: on the unequal-length pair `[1]` and `[1, 1]` it
returns the ordinary numeric value `1/2` (under the square-root oracle
`id`, for which `sqrt 1 = 1` and the second magnitude is `2`) instead of
failing with a dimension-mismatch error. -/
theorem cosineSimilarityV1_unequal_length_numeric :
    List.length [(1 : ℚ)] ≠ List.length [(1 : ℚ), 1] ∧
      cosineSimilarityV1 (fun q => q) [1] [1, 1] = JsNum.num (1 / 2) := by
  refine ⟨by decide, ?_⟩
  norm_num [cosineSimilarityV1, dotV1, jsAdd, jsDiv, jsDivQ, hypotQ, sumSquares]

/-- C3, amended.  In the current variant both `cosineSimilarity` and
`euclideanDistance` fail with the dimension-mismatch error on every pair of
unequal-length vectors, and return no partial or numeric result; the earlier
variant's `euclideanDistance` is the same function, but its
`cosineSimilarity` performs no length check. -/
theorem dimension_mismatch_always_errors (sqrtFn : ℚ → ℚ) (a b : Vec)
    (h : a.length ≠ b.length) :
    cosineSimilarity sqrtFn a b = .error dimensionError ∧
      euclideanDistance sqrtFn a b = .error dimensionError := by
  constructor <;> simp [cosineSimilarity, euclideanDistance, h]

theorem dimension_mismatch_always_errors_witness :
    List.length [(1 : ℚ)] ≠ List.length [(1 : ℚ), 2] ∧
      (cosineSimilarity (fun q => q) [1] [1, 2] = .error dimensionError ∧
        euclideanDistance (fun q => q) [1] [1, 2] = .error dimensionError) :=
  ⟨by decide, dimension_mismatch_always_errors (fun q => q) [1] [1, 2] (by decide)⟩

/-- C4, code bug.  A `Tieto` instance constructed with explicit
`completionParams` (temperature `0.7`, `n_predict` `64`, `max_tokens`
`100`) resolves to the built-in defaults `0`, `128`, `500` anyway — the
current constructor rebuilds `completionParams` from literals and copies
only `modelName` (`serve.ts:571-576`) — so every completion request body
carries temperature `0` and `n_predict` `128`.  The earlier variant's
constructor, which spreads `...config.completionParams`
(`serve.ts:80-85`), honors the explicit values, showing the drop is a
regression. -/
theorem explicit_completionParams_ignored :
    (mkConfig (fun _ => none) []
        { completionParams :=
            some { temperature := some (7 / 10), n_predict := some 64,
                   max_tokens := some 100 } }).completionParams =
      ⟨0, 128, 500, ""⟩ ∧
    buildCompletionBody
        (mkConfig (fun _ => none) []
          { completionParams :=
              some { temperature := some (7 / 10), n_predict := some 64,
                     max_tokens := some 100 } }) "p" =
      CompletionBody.flat "p" 0 128 ∧
    mkCompletionParamsV1
        { completionParams :=
            some { temperature := some (7 / 10), n_predict := some 64,
                   max_tokens := some 100 } } =
      ⟨7 / 10, 64, 100, ""⟩ :=
  ⟨rfl, rfl, rfl⟩

/-- C6, code bug.  For the ordered operators the code computes each side as
`Number(x) || Date.parse(x)` (`serve.ts:713-714`).  `Number("0")` is `0`,
which is FALSY, so a side that parses as the number `0` falls through to the
date parse instead of being compared numerically.  Concretely, with metadata
`year = "0"` and filter `year >= 0`, under any date parser that rejects
`"0"` the chunk is EXCLUDED, although both sides parse as the number `0` and
`0 >= 0` holds — the numeric comparison the claim (and the spec) mandates
would retain it. -/
theorem ordered_filter_zero_falls_through_to_date_parse
    (dp : String → Option ℚ) (h : dp "0" = none) :
    satisfies dp [("year", .s "0")] ⟨"year", .ge, .scalar "0"⟩ = false ∧
      jsNumber "0" = JsNum.num 0 := by
  have hj : jsNumber "0" = JsNum.num 0 := by decide
  refine ⟨?_, hj⟩
  simp [satisfies, metaLookup, List.find?, MetaValue.toStr, FilterValue.asStr,
    numOrDate, hj, truthyNum, h, jsCmpGe]

theorem ordered_filter_zero_falls_through_to_date_parse_witness :
    ((fun _ : String => (none : Option ℚ)) "0" = none) ∧
      (satisfies (fun _ => none) [("year", .s "0")] ⟨"year", .ge, .scalar "0"⟩ = false ∧
        jsNumber "0" = JsNum.num 0) :=
  ⟨rfl, ordered_filter_zero_falls_through_to_date_parse (fun _ => none) rfl⟩

/-- C8.  A filter whose key is absent from the chunk's metadata mapping
evaluates to false, so the chunk is excluded — filtering fails closed; and
the empty filter set admits every chunk: the metadata-filtering pass keeps
the whole list unchanged. -/
theorem missing_key_fails_closed_empty_filters_admit_all
    (dp : String → Option ℚ) (m : Meta) (f : Filter) (chunks : List Chunk)
    (h : metaLookup m f.key = none) :
    satisfies dp m f = false ∧
      satisfiesAll dp [] m = true ∧
      survivors dp [] chunks = chunks := by
  refine ⟨?_, rfl, ?_⟩
  · simp [satisfies, h]
  · simp [survivors, satisfiesAll]

theorem missing_key_fails_closed_empty_filters_admit_all_witness :
    (metaLookup [("category", .s "pets")] "year" = none) ∧
      (satisfies (fun _ => none) [("category", .s "pets")]
          ⟨"year", .eq, .scalar "2020"⟩ = false ∧
        satisfiesAll (fun _ => none) [] [("category", .s "pets")] = true ∧
        survivors (fun _ => none) [] [⟨"t", [1], [("category", .s "pets")]⟩] =
          [⟨"t", [1], [("category", .s "pets")]⟩]) :=
  ⟨rfl, missing_key_fails_closed_empty_filters_admit_all (fun _ => none)
    [("category", .s "pets")] ⟨"year", .eq, .scalar "2020"⟩
    [⟨"t", [1], [("category", .s "pets")]⟩] rfl⟩

/-- C2.  If zero chunks survive the metadata filtering step, `search`
returns an empty result immediately and the embedding client is never
invoked for the question (`serve.ts:755-758` precede the
`await this.embed(question)` at line 760). -/
theorem search_no_survivors_skips_embedding (sqrtFn : ℚ → ℚ)
    (dp : String → Option ℚ) (embedFn : String → Vec) (cfg : TietoConfig)
    (chunks : List Chunk) (question : String) (filters : List Filter)
    (h : survivors dp filters chunks = []) :
    search sqrtFn dp embedFn cfg chunks question filters =
      .ok ⟨[], false⟩ := by
  simp [search, h]

theorem search_no_survivors_skips_embedding_witness :
    (survivors (fun _ => none) [⟨"category", .eq, .scalar "pets"⟩]
        [⟨"t", [1], [("category", .s "wildlife")]⟩] = []) ∧
      search (fun q => q) (fun _ => none) (fun _ => [1])
          ⟨2 / 5, 4 / 5, "topics", "memory", false, "", "", "", 3, 3, ⟨0, 128, 500, ""⟩⟩
          [⟨"t", [1], [("category", .s "wildlife")]⟩] "q"
          [⟨"category", .eq, .scalar "pets"⟩] = .ok ⟨[], false⟩ :=
  ⟨by decide, search_no_survivors_skips_embedding (fun q => q) (fun _ => none)
    (fun _ => [1]) _ _ "q" _ (by decide)⟩

/-- `chunkWindows` of the empty line list is empty for every chunk size. -/
theorem chunkWindows_nil (cs : ℕ) : chunkWindows cs [] = [] := by
  rw [chunkWindows]
  split <;> simp

/-- C10.  For a document whose body has no non-empty lines after trimming,
`ingest` makes zero embedding calls and writes the empty string to the
derived chunk-store path, so any previously stored chunks for that document
are erased by the full-file replacement. -/
theorem ingest_blank_body_writes_empty_file (embedFn : String → Vec)
    (ser : Chunk → String) (cfg : TietoConfig) (m : Meta) (body path : String)
    (fs : String → Option String)
    (h : ((splitOnChar '\n' body).map jsTrim).filter (fun l => l ≠ "") = []) :
    (ingest embedFn ser cfg m body path).embedCalls = 0 ∧
      (ingest embedFn ser cfg m body path).written = "" ∧
      writeStore fs (ingest embedFn ser cfg m body path).outPath
          (ingest embedFn ser cfg m body path).written
          (ingest embedFn ser cfg m body path).outPath = some "" := by
  have h' : ((splitOnChar '\n' body).map jsTrim).filter
      (fun l => !decide (l = "")) = [] := by simpa using h
  have hw : (ingest embedFn ser cfg m body path).written = "" := by
    simp [ingest, h', chunkWindows_nil, String.intercalate]
  refine ⟨?_, hw, ?_⟩
  · simp [ingest, h', chunkWindows_nil]
  · simp [writeStore, hw]

theorem ingest_blank_body_writes_empty_file_witness :
    (((splitOnChar '\n' "\n  \n").map jsTrim).filter (fun l => l ≠ "") = []) ∧
      ((ingest (fun _ => [1]) (fun _ => "rec")
            ⟨2 / 5, 4 / 5, "topics", "memory", false, "", "", "", 3, 3, ⟨0, 128, 500, ""⟩⟩
            [] "\n  \n" "docs/demo/note.txt").embedCalls = 0 ∧
        (ingest (fun _ => [1]) (fun _ => "rec")
            ⟨2 / 5, 4 / 5, "topics", "memory", false, "", "", "", 3, 3, ⟨0, 128, 500, ""⟩⟩
            [] "\n  \n" "docs/demo/note.txt").written = "" ∧
        writeStore (fun _ => some "old")
            (ingest (fun _ => [1]) (fun _ => "rec")
              ⟨2 / 5, 4 / 5, "topics", "memory", false, "", "", "", 3, 3, ⟨0, 128, 500, ""⟩⟩
              [] "\n  \n" "docs/demo/note.txt").outPath
            (ingest (fun _ => [1]) (fun _ => "rec")
              ⟨2 / 5, 4 / 5, "topics", "memory", false, "", "", "", 3, 3, ⟨0, 128, 500, ""⟩⟩
              [] "\n  \n" "docs/demo/note.txt").written
            (ingest (fun _ => [1]) (fun _ => "rec")
              ⟨2 / 5, 4 / 5, "topics", "memory", false, "", "", "", 3, 3, ⟨0, 128, 500, ""⟩⟩
              [] "\n  \n" "docs/demo/note.txt").outPath = some "") :=
  ⟨by decide, ingest_blank_body_writes_empty_file (fun _ => [1]) (fun _ => "rec")
    _ [] "\n  \n" "docs/demo/note.txt" (fun _ => some "old") (by decide)⟩

/-- Mathematical reading of the retained-score side of the final filter:
the score is `+Infinity` or a number at least the threshold (NaN scores can
never pass). -/
def ScorePasses (t : ℚ) (s : JsNum) : Prop :=
  s = .inf ∨ ∃ q, s = .num q ∧ t ≤ q

theorem jsCmpGe_num_iff (s : JsNum) (t : ℚ) :
    jsCmpGe s (.num t) = true ↔ ScorePasses t s := by
  cases s <;> simp [jsCmpGe, ScorePasses]

theorem passThresholds_iff (cfg : TietoConfig) (sc : ScoredChunk) :
    passThresholds cfg sc = true ↔
      ScorePasses cfg.minSimilarityThreshold sc.score ∧
        sc.distance ≤ cfg.maxDistance := by
  simp [passThresholds, jsCmpGe_num_iff]

/-- C1.  When at least one chunk survives filtering and scoring succeeds,
`search` returns exactly the members of the top-`maxResults` slice of the
descending-by-similarity sort that BOTH have similarity at least
`minSimilarityThreshold` and distance at most `maxDistance`; and both
boundaries are inclusive — a top-slice chunk whose score equals the
similarity threshold exactly and whose distance equals `maxDistance`
exactly is retained. -/
theorem search_retains_exactly_thresholded_top (sqrtFn : ℚ → ℚ)
    (dp : String → Option ℚ) (embedFn : String → Vec) (cfg : TietoConfig)
    (chunks : List Chunk) (question : String) (filters : List Filter)
    (scored : List ScoredChunk)
    (hsurv : survivors dp filters chunks ≠ [])
    (hscore : scoreAll sqrtFn (embedFn question) (survivors dp filters chunks) =
      .ok scored) :
    search sqrtFn dp embedFn cfg chunks question filters =
        .ok ⟨((sortDesc scored).take cfg.maxResults).filter (passThresholds cfg),
          true⟩ ∧
      (∀ sc, sc ∈ ((sortDesc scored).take cfg.maxResults).filter
            (passThresholds cfg) ↔
          sc ∈ (sortDesc scored).take cfg.maxResults ∧
            ScorePasses cfg.minSimilarityThreshold sc.score ∧
            sc.distance ≤ cfg.maxDistance) ∧
      (∀ sc, sc ∈ (sortDesc scored).take cfg.maxResults →
        sc.score = .num cfg.minSimilarityThreshold →
        sc.distance = cfg.maxDistance →
        sc ∈ ((sortDesc scored).take cfg.maxResults).filter
          (passThresholds cfg)) := by
  refine ⟨?_, ?_, ?_⟩
  · have hne : (survivors dp filters chunks).isEmpty = false := by
      simpa using hsurv
    simp [search, hne, hscore]
  · intro sc
    rw [List.mem_filter, passThresholds_iff]
  · intro sc htop hsc hd
    refine List.mem_filter.mpr ⟨htop, ?_⟩
    rw [passThresholds_iff, hsc, hd]
    exact ⟨Or.inr ⟨cfg.minSimilarityThreshold, rfl, le_refl _⟩, le_refl _⟩

/-- Witness configuration whose thresholds sit exactly on the witness
chunk's score (`1`) and distance (`0`), exercising both inclusive
boundaries. -/
def wCfg : TietoConfig :=
  ⟨1, 0, "topics", "memory", false, "", "", "", 3, 3, ⟨0, 128, 500, ""⟩⟩

def wChunk : Chunk := ⟨"hello", [1], []⟩

def wScored : ScoredChunk := ⟨"hello", [1], [], .num 1, 0⟩

/-- Concrete evaluation of `search` on the witness fixtures: the single
chunk scores exactly `1` at distance exactly `0` and is retained. -/
theorem wSearch_eval :
    search (fun q => q) (fun _ => none) (fun _ => [(1 : ℚ)]) wCfg [wChunk]
      "q" [] = .ok ⟨[wScored], true⟩ := by
  have hs : scoreAll (fun q => q) [(1 : ℚ)]
      (survivors (fun _ => none) [] [wChunk]) = .ok [wScored] := by
    norm_num [survivors, satisfiesAll, scoreAll, scoreChunk, cosineSimilarity,
      euclideanDistance, dotQ, hypotQ, sumSquares, jsDivQ, wChunk, wScored]
  have hne : (survivors (fun _ => none) [] [wChunk]).isEmpty = false := by decide
  have hp : passThresholds wCfg wScored = true := by
    rw [passThresholds_iff]
    exact ⟨Or.inr ⟨1, rfl, le_refl 1⟩, le_refl 0⟩
  have hm : wCfg.maxResults = 3 := rfl
  simp [search, hne, hs, hm, sortDesc, insertDesc, hp]

theorem search_retains_exactly_thresholded_top_witness :
    (survivors (fun _ => none) [] [wChunk] ≠ []) ∧
      scoreAll (fun q => q) [(1 : ℚ)] (survivors (fun _ => none) [] [wChunk]) =
        .ok [wScored] ∧
      search (fun q => q) (fun _ => none) (fun _ => [(1 : ℚ)]) wCfg [wChunk]
          "q" [] = .ok ⟨[wScored], true⟩ := by
  have hs : scoreAll (fun q => q) [(1 : ℚ)]
      (survivors (fun _ => none) [] [wChunk]) = .ok [wScored] := by
    norm_num [survivors, satisfiesAll, scoreAll, scoreChunk, cosineSimilarity,
      euclideanDistance, dotQ, hypotQ, sumSquares, jsDivQ, wChunk, wScored]
  refine ⟨by decide, hs, ?_⟩
  have h := (search_retains_exactly_thresholded_top (fun q => q) (fun _ => none)
    (fun _ => [(1 : ℚ)]) wCfg [wChunk] "q" [] [wScored] (by decide) hs).1
  rw [h]
  have hp : passThresholds wCfg wScored = true := by
    rw [passThresholds_iff]
    exact ⟨Or.inr ⟨1, rfl, le_refl 1⟩, le_refl 0⟩
  have hm : wCfg.maxResults = 3 := rfl
  rw [hm]
  simp [sortDesc, insertDesc, hp]

/-- The dot product with an all-zero left vector is zero. -/
theorem dotQ_zero_left : ∀ (a b : Vec), (∀ x ∈ a, x = 0) → dotQ a b = 0
  | [], _, _ => rfl
  | _ :: _, [], _ => rfl
  | x :: xs, y :: ys, h => by
    have hx : x = 0 := h x (List.mem_cons_self x xs)
    have ih := dotQ_zero_left xs ys (fun z hz => h z (List.mem_cons_of_mem x hz))
    simp [dotQ] at ih ⊢
    simp [hx, ih]

/-- The dot product with an all-zero right vector is zero. -/
theorem dotQ_zero_right : ∀ (a b : Vec), (∀ y ∈ b, y = 0) → dotQ a b = 0
  | [], _, _ => rfl
  | _ :: _, [], _ => rfl
  | x :: xs, y :: ys, h => by
    have hy : y = 0 := h y (List.mem_cons_self y ys)
    have ih := dotQ_zero_right xs ys (fun z hz => h z (List.mem_cons_of_mem y hz))
    simp [dotQ] at ih ⊢
    simp [hy, ih]

/-- The sum of squares of an all-zero vector is zero. -/
theorem sumSquares_zero : ∀ (a : Vec), (∀ x ∈ a, x = 0) → sumSquares a = 0
  | [], _ => rfl
  | x :: xs, h => by
    have hx : x = 0 := h x (List.mem_cons_self x xs)
    have ih := sumSquares_zero xs (fun z hz => h z (List.mem_cons_of_mem x hz))
    simp [sumSquares] at ih ⊢
    simp [hx, ih]

/-- Every member of a successful `scoreAll` run comes from scoring some
input chunk. -/
theorem scoreAll_mem (sqrtFn : ℚ → ℚ) (qVec : Vec) :
    ∀ (cs : List Chunk) (scs : List ScoredChunk),
      scoreAll sqrtFn qVec cs = .ok scs →
      ∀ sc ∈ scs, ∃ c ∈ cs, scoreChunk sqrtFn qVec c = .ok sc := by
  intro cs
  induction cs with
  | nil =>
    intro scs h sc hsc
    simp only [scoreAll] at h
    cases h
    simp at hsc
  | cons c cs ih =>
    intro scs h sc hsc
    simp only [scoreAll] at h
    cases hc : scoreChunk sqrtFn qVec c with
    | error e => rw [hc] at h; exact absurd h (by simp)
    | ok s =>
      cases hr : scoreAll sqrtFn qVec cs with
      | error e => rw [hc, hr] at h; exact absurd h (by simp)
      | ok ss =>
        rw [hc, hr] at h
        cases h
        rcases List.mem_cons.mp hsc with h1 | h1
        · exact ⟨c, List.mem_cons_self c cs, h1 ▸ hc⟩
        · obtain ⟨d, hd, hds⟩ := ih ss hr sc h1
          exact ⟨d, List.mem_cons_of_mem c hd, hds⟩

/-- A successfully scored chunk keeps its embedding and carries exactly the
cosine-similarity value of that embedding against the query vector. -/
theorem scoreChunk_ok_fields (sqrtFn : ℚ → ℚ) (qVec : Vec) (c : Chunk)
    (sc : ScoredChunk) (h : scoreChunk sqrtFn qVec c = .ok sc) :
    sc.embedding = c.embedding ∧
      sc.score = jsDivQ (dotQ c.embedding qVec)
        (hypotQ sqrtFn c.embedding * hypotQ sqrtFn qVec) := by
  unfold scoreChunk cosineSimilarity euclideanDistance at h
  by_cases hl : c.embedding.length ≠ qVec.length
  · simp [hl] at h
  · simp [hl] at h
    cases h
    exact ⟨rfl, rfl⟩

theorem mem_insertDesc (c x : ScoredChunk) :
    ∀ l : List ScoredChunk, x ∈ insertDesc c l ↔ x = c ∨ x ∈ l := by
  intro l
  induction l with
  | nil => simp [insertDesc]
  | cons d ds ih =>
    simp only [insertDesc]
    split
    · simp [ih]
      tauto
    · simp

theorem mem_sortDesc (x : ScoredChunk) :
    ∀ l : List ScoredChunk, x ∈ sortDesc l ↔ x ∈ l := by
  intro l
  induction l with
  | nil => simp [sortDesc]
  | cons c cs ih => simp [sortDesc, mem_insertDesc, ih]

/-- Every chunk in a successful `search` result was scored from a surviving
chunk and passed the final thresholds. -/
theorem search_ok_mem (sqrtFn : ℚ → ℚ) (dp : String → Option ℚ)
    (embedFn : String → Vec) (cfg : TietoConfig) (chunks : List Chunk)
    (question : String) (filters : List Filter) (out : SearchOutcome)
    (sc : ScoredChunk)
    (h : search sqrtFn dp embedFn cfg chunks question filters = .ok out)
    (hm : sc ∈ out.result) :
    ∃ scored, scoreAll sqrtFn (embedFn question) (survivors dp filters chunks) =
        .ok scored ∧ sc ∈ scored ∧ passThresholds cfg sc = true := by
  unfold search at h
  by_cases he : (survivors dp filters chunks).isEmpty
  · rw [if_pos he] at h
    cases h
    simp at hm
  · rw [if_neg he] at h
    cases hall : scoreAll sqrtFn (embedFn question) (survivors dp filters chunks) with
    | error e => rw [hall] at h; exact absurd h (by simp)
    | ok scored =>
      rw [hall] at h
      cases h
      refine ⟨scored, rfl, ?_, ?_⟩
      · exact (mem_sortDesc sc scored).mp
          (List.mem_of_mem_take (List.mem_filter.mp hm).1)
      · exact (List.mem_filter.mp hm).2

/-- C7.  No chunk retained by `search` can have an all-zero embedding, and
if any chunk is retained the query embedding is not all-zero either: a zero
norm makes the cosine denominator zero and the dot product zero, so the
score is `NaN` (`0/0`), and `NaN >= minSimilarityThreshold` is false, which
the final filter rejects — the chunk is excluded rather than returned with
a `NaN` score. -/
theorem zero_norm_chunk_excluded (sqrtFn : ℚ → ℚ) (dp : String → Option ℚ)
    (embedFn : String → Vec) (cfg : TietoConfig) (chunks : List Chunk)
    (question : String) (filters : List Filter) (out : SearchOutcome)
    (sc : ScoredChunk) (h0 : sqrtFn 0 = 0)
    (h : search sqrtFn dp embedFn cfg chunks question filters = .ok out)
    (hm : sc ∈ out.result) :
    (¬ ∀ x ∈ sc.embedding, x = 0) ∧ (¬ ∀ x ∈ embedFn question, x = 0) := by
  obtain ⟨scored, hall, hmem, hpass⟩ :=
    search_ok_mem sqrtFn dp embedFn cfg chunks question filters out sc h hm
  obtain ⟨c, _, hsc⟩ :=
    scoreAll_mem sqrtFn (embedFn question) _ scored hall sc hmem
  obtain ⟨hemb, hscore⟩ :=
    scoreChunk_ok_fields sqrtFn (embedFn question) c sc hsc
  have hnan : sc.score ≠ JsNum.nan := by
    intro hn
    rw [passThresholds, hn] at hpass
    simp [jsCmpGe] at hpass
  constructor
  · intro hzero
    apply hnan
    rw [hscore]
    have hd : dotQ c.embedding (embedFn question) = 0 :=
      dotQ_zero_left _ _ (hemb ▸ hzero)
    have hs : sumSquares c.embedding = 0 := sumSquares_zero _ (hemb ▸ hzero)
    rw [hd]
    unfold hypotQ
    rw [hs, h0]
    simp [jsDivQ]
  · intro hzero
    apply hnan
    rw [hscore]
    have hd : dotQ c.embedding (embedFn question) = 0 :=
      dotQ_zero_right _ _ hzero
    have hs : sumSquares (embedFn question) = 0 := sumSquares_zero _ hzero
    rw [hd]
    unfold hypotQ
    rw [hs, h0]
    simp [jsDivQ]

theorem zero_norm_chunk_excluded_witness :
    ((fun q : ℚ => q) 0 = 0) ∧
      search (fun q => q) (fun _ => none) (fun _ => [(1 : ℚ)]) wCfg [wChunk]
          "q" [] = .ok ⟨[wScored], true⟩ ∧
      wScored ∈ (SearchOutcome.mk [wScored] true).result ∧
      ((¬ ∀ x ∈ wScored.embedding, x = 0) ∧
        (¬ ∀ x ∈ (fun _ : String => [(1 : ℚ)]) "q", x = 0)) := by
  refine ⟨rfl, wSearch_eval, by simp, ?_⟩
  exact zero_norm_chunk_excluded (fun q => q) (fun _ => none)
    (fun _ => [(1 : ℚ)]) wCfg [wChunk] "q" [] ⟨[wScored], true⟩ wScored rfl
    wSearch_eval (by simp)

/-- C5, counterexample.  In a string-mode query with one retained chunk and
no completion endpoint, the returned prompt does NOT end with
`"Question: <question>"`: the current `buildPrompt` template
(`serve.ts:803`) appends a trailing newline after the question, so the
final content of the returned string is a newline, not the question. -/
theorem query_prompt_trailing_newline :
    query (fun q => q) (fun _ => none) (fun _ => [(1 : ℚ)]) (fun _ => .ok "")
        wCfg [wChunk] "q" [] false = .ok (.str (buildPrompt "hello" "q")) ∧
      strEndsWith (buildPrompt "hello" "q") "Question: q" = false ∧
      strEndsWith (buildPrompt "hello" "q") "Question: q\n" = true := by
  refine ⟨?_, by decide, by decide⟩
  rw [query, wSearch_eval]
  have hurl : wCfg.completionUrl = "" := rfl
  simp [hurl]
  decide

/-- C5, amended.  In string mode with no completion endpoint configured and
at least one chunk retained, `query` returns the assembled prompt verbatim:
it begins with the fixed framing phrase and ends with
`"Question: <question>"` followed by a single trailing newline. -/
theorem query_string_mode_returns_prompt (sqrtFn : ℚ → ℚ)
    (dp : String → Option ℚ) (embedFn : String → Vec)
    (completeFn : String → Except String String) (cfg : TietoConfig)
    (chunks : List Chunk) (question : String) (filters : List Filter)
    (out : SearchOutcome) (hurl : cfg.completionUrl = "")
    (hs : search sqrtFn dp embedFn cfg chunks question filters = .ok out)
    (hne : out.result ≠ []) :
    query sqrtFn dp embedFn completeFn cfg chunks question filters false =
        .ok (.str (buildPrompt
          (String.intercalate "\n\n" (out.result.map ScoredChunk.text))
          question)) ∧
      (∃ suf, buildPrompt
          (String.intercalate "\n\n" (out.result.map ScoredChunk.text))
          question = promptHeader ++ suf) ∧
      (∃ pre, buildPrompt
          (String.intercalate "\n\n" (out.result.map ScoredChunk.text))
          question = pre ++ ("Question: " ++ question ++ "\n")) := by
  refine ⟨?_, ?_, ?_⟩
  · have hne' : out.result.isEmpty = false := by simpa using hne
    rw [query, hs]
    simp [hne', hurl]
  · refine ⟨String.intercalate "\n\n" (out.result.map ScoredChunk.text) ++
      ("\n\n---\n\nQuestion: " ++ (question ++ "\n")), ?_⟩
    simp [buildPrompt, String.append_assoc]
  · refine ⟨(promptHeader ++
      String.intercalate "\n\n" (out.result.map ScoredChunk.text)) ++
      "\n\n---\n\n", ?_⟩
    have hM : ("\n\n---\n\nQuestion: " : String) = "\n\n---\n\n" ++ "Question: " := by
      decide
    rw [buildPrompt]
    simp only [String.append_assoc]
    rw [← String.append_assoc "\n\n---\n\n" "Question: ", ← hM]

theorem query_string_mode_returns_prompt_witness :
    (wCfg.completionUrl = "") ∧
      search (fun q => q) (fun _ => none) (fun _ => [(1 : ℚ)]) wCfg [wChunk]
          "q" [] = .ok ⟨[wScored], true⟩ ∧
      ((SearchOutcome.mk [wScored] true).result ≠ []) ∧
      (query (fun q => q) (fun _ => none) (fun _ => [(1 : ℚ)])
          (fun _ => .ok "") wCfg [wChunk] "q" [] false =
          .ok (.str (buildPrompt
            (String.intercalate "\n\n"
              ((SearchOutcome.mk [wScored] true).result.map ScoredChunk.text))
            "q")) ∧
        (∃ suf, buildPrompt
            (String.intercalate "\n\n"
              ((SearchOutcome.mk [wScored] true).result.map ScoredChunk.text))
            "q" = promptHeader ++ suf) ∧
        (∃ pre, buildPrompt
            (String.intercalate "\n\n"
              ((SearchOutcome.mk [wScored] true).result.map ScoredChunk.text))
            "q" = pre ++ ("Question: " ++ "q" ++ "\n"))) :=
  ⟨rfl, wSearch_eval, by decide,
    query_string_mode_returns_prompt (fun q => q) (fun _ => none)
      (fun _ => [(1 : ℚ)]) (fun _ => .ok "") wCfg [wChunk] "q" []
      ⟨[wScored], true⟩ rfl wSearch_eval (by decide)⟩

/-- C9, counterexample.  The response-parsing conditions are truthiness
checks, not presence checks: for a response whose nested
`choices[0].message.content` IS present but empty while a flat `content`
field holds `"flat"`, `complete` returns `"flat"` — not the trimmed nested
field (the empty string) that the claim prescribes for every response with
the nested field present. -/
theorem completeParse_truthiness_not_presence :
    nestedContent ⟨some [⟨some ⟨some ""⟩⟩], some "flat"⟩ = some "" ∧
      completeParse ⟨some [⟨some ⟨some ""⟩⟩], some "flat"⟩ = "flat" ∧
      ("flat" : String) ≠ jsTrim "" := by
  refine ⟨by decide, by decide, by decide⟩

/-- C9, amended.  `complete` returns the nested
`choices[0].message.content` trimmed when that field is present AND
non-empty; otherwise the flat `content` field trimmed when present and
non-empty; otherwise the empty string, without raising. -/
theorem completeParse_characterization (j : CompletionResponse) :
    (∀ c, nestedContent j = some c → c ≠ "" → completeParse j = jsTrim c) ∧
      ((j.choices.isSome && truthyStr (nestedContent j)) = false →
        ∀ c, j.content = some c → c ≠ "" → completeParse j = jsTrim c) ∧
      ((j.choices.isSome && truthyStr (nestedContent j)) = false →
        truthyStr j.content = false → completeParse j = "") := by
  refine ⟨?_, ?_, ?_⟩
  · intro c hc hcne
    have hsome : j.choices.isSome = true := by
      cases hch : j.choices with
      | none => rw [nestedContent, hch] at hc; simp at hc
      | some cs => rfl
    have ht : truthyStr (nestedContent j) = true := by
      rw [hc]
      simpa [truthyStr] using hcne
    rw [completeParse, hsome, ht, hc]
    rfl
  · intro hcond c hflat hcne
    rw [completeParse, hcond, hflat]
    simp [truthyStr, hcne]
  · intro hcond hflat
    rw [completeParse, hcond, hflat]
    simp

theorem completeParse_characterization_witness :
    (((⟨none, some " answer "⟩ : CompletionResponse).choices.isSome &&
        truthyStr (nestedContent ⟨none, some " answer "⟩)) = false) ∧
      ((⟨none, some " answer "⟩ : CompletionResponse).content = some " answer ") ∧
      (" answer " ≠ "") ∧
      completeParse ⟨none, some " answer "⟩ = jsTrim " answer " ∧
      jsTrim " answer " = "answer" :=
  ⟨by decide, rfl, by decide,
    (completeParse_characterization ⟨none, some " answer "⟩).2.1 (by decide)
      " answer " rfl (by decide),
    by decide⟩

end Tieto
